import Mathlib

/-!
Verification of `myutilspkg.mysyncdir.main` (directory synchronizer).

The module under study exposes `sync_dir(src, dst, exclude_hidden=False,
verbose=True)` together with two helpers, `_is_hidden` and `_ignore_hidden`.
We embed:

* `_is_hidden` as `MySync.isHidden`, a pure function of the entry's base
  name, the OS class (`nt`), and the outcome of the Windows attribute query;
* the filesystem as a tree of files and directories (`MySync.FSTree`), each
  child carrying the attribute-query outcome for its path;
* the `shutil.copytree(..., ignore=_ignore_hidden)` staging copy as
  `MySync.EntryList.filterHidden`;
* the external `dirsync.sync` engine (a third-party library, not part of
  this repository) as `MySync.dirsyncSync`, modelled from the specification
  of the core synchronization pass;
* `sync_dir` itself as `MySync.sync_dir`, producing a `MySync.SyncOutcome`
  that records the propagated exception (if any), the Python return value,
  the destination tree after the call, the destination mutations performed,
  and the staging-directory lifecycle.
-/

namespace MySync

/-- Embedding of Python's `name.startswith('.')` for the one-character
prefix `'.'`: true exactly when the string is nonempty and its first
character is a dot. -/
def startsWithDot (name : String) : Bool :=
  match name.data with
  | [] => false
  | c :: _ => c = '.'

/--
Embedding of `_is_hidden(path)` (main.py lines 35-53).

* `nt` is `os.name == 'nt'`.
* `attrQuery` is the outcome of
  `ctypes.windll.kernel32.GetFileAttributesW(str(path))`: `none` models the
  `ctypes` call raising an exception (caught by the `try/except`, which
  returns `False`), `some a` models the call returning the integer `a`
  (where `-1` is `INVALID_FILE_ATTRIBUTES`).

The Python test `bool(attrs & 0x2)` (bit 1 of `attrs`) is expressed
arithmetically as `2 ≤ attrs % 4`: Python's `%` on `int` is floor modulus,
which agrees with `Int.emod` for the positive modulus `4`, and bit 1 of an
integer is set exactly when its residue mod 4 is 2 or 3.
-/
def isHidden (nt : Bool) (name : String) (attrQuery : Option Int) : Bool :=
  if startsWithDot name then true
  else if nt then
    match attrQuery with
    | none => false
    | some attrs => if attrs = -1 then false else decide (2 ≤ attrs % 4)
  else false

mutual
/-- A filesystem subtree: a file with its content, or a directory with its
children. -/
inductive FSTree where
  | file : String → FSTree
  | dir : EntryList → FSTree
/-- The children of a directory, in OS listing order. Each child carries its
base name, the attribute-query outcome `GetFileAttributesW` would produce for
its path (see `isHidden`), and its subtree. -/
inductive EntryList where
  | nil : EntryList
  | cons : String → Option Int → FSTree → EntryList → EntryList
end

/-- The children as a plain list of (name, attribute outcome, subtree). -/
def EntryList.toList : EntryList → List (String × Option Int × FSTree)
  | .nil => []
  | .cons n a t rest => (n, a, t) :: rest.toList

/-- The child names, in order. -/
def EntryList.names : EntryList → List String
  | .nil => []
  | .cons n _ _ rest => n :: rest.names

mutual
/-- Look an entry up by relative path. `some (some c)` : a file with content
`c` is at that path; `some none` : a directory is at that path; `none` : no
entry is at that path. -/
def FSTree.lookup : FSTree → List String → Option (Option String)
  | .file c, [] => some (some c)
  | .file _, _ :: _ => none
  | .dir _, [] => some none
  | .dir es, n :: p => EntryList.find es n p
/-- Look up `p` inside the first child named `n`. -/
def EntryList.find : EntryList → String → List String → Option (Option String)
  | .nil, _, _ => none
  | .cons m _ t rest, n, p => if m = n then t.lookup p else rest.find n p
end

mutual
/-- All relative paths of entries in the tree (the root itself is `[]`). -/
def FSTree.paths : FSTree → List (List String)
  | .file _ => [[]]
  | .dir es => [] :: es.paths
/-- All relative paths of entries strictly below a directory with these
children. -/
def EntryList.paths : EntryList → List (List String)
  | .nil => []
  | .cons n _ t rest => (t.paths.map (fun p => n :: p)) ++ rest.paths
end

mutual
/-- Well-formedness: sibling names are distinct at every level (as in a real
filesystem directory). -/
def FSTree.wf : FSTree → Bool
  | .file _ => true
  | .dir es => decide es.names.Nodup && es.wfAll
/-- Every subtree in the list is well-formed and has distinct sibling names. -/
def EntryList.wfAll : EntryList → Bool
  | .nil => true
  | .cons _ _ t rest => t.wf && rest.wfAll
end

mutual
/-- Embedding of the staging copy
`shutil.copytree(src, temp_src, ignore=_ignore_hidden)` (main.py line 103
together with `_ignore_hidden`, lines 55-70): at each directory level the
ignore callback applies `_is_hidden` to every child name, and `copytree`
then skips the ignored children entirely, descending only into the kept
directories. -/
def FSTree.filterHidden (nt : Bool) : FSTree → FSTree
  | .file c => .file c
  | .dir es => .dir (es.filterHidden nt)
/-- The kept children of one directory level, with their subtrees filtered
recursively. -/
def EntryList.filterHidden (nt : Bool) : EntryList → EntryList
  | .nil => .nil
  | .cons n a t rest =>
      if isHidden nt n a then rest.filterHidden nt
      else .cons n a (t.filterHidden nt) (rest.filterHidden nt)
end

/-- The destination mutations of one synchronization pass: created, updated
and deleted entries (relative paths). -/
structure SyncActions where
  created : List (List String)
  updated : List (List String)
  deleted : List (List String)
deriving DecidableEq, Repr

/-- A pass that touches nothing. -/
def SyncActions.none : SyncActions := ⟨[], [], []⟩

/-- The actions a one-way incremental pass applies when bringing destination
`d` to match source `s`: create source entries missing from the destination,
re-copy files whose content differs, delete destination entries absent from
the source. -/
def computeActions (s d : FSTree) : SyncActions where
  created := s.paths.filter (fun p => (d.lookup p).isNone)
  updated := s.paths.filter (fun p =>
    match s.lookup p, d.lookup p with
    | some (some a), some (some b) => a != b
    | _, _ => false)
  deleted := d.paths.filter (fun p => (s.lookup p).isNone)

/-- Errors propagated out of `sync_dir`. -/
inductive SyncError where
  /-- `FileNotFoundError` raised by `sync_dir` itself (main.py line 95), and
  the engine's rejection of a non-directory effective source. -/
  | sourceNotFound
  /-- A failure of the `shutil.copytree` staging copy (e.g.
  `NotADirectoryError` when the source is a regular file). -/
  | stagingError
  /-- The engine's rejection of a destination that exists as a non-directory
  file. -/
  | destinationInvalid
deriving DecidableEq, Repr

/-- The `SyncResult` record of the specification's data model: the set of
side effects applied to the destination together with the per-entry
failures, as the record an implementation is supposed to return to the
caller. -/
structure SyncResult where
  created : List (List String)
  updated : List (List String)
  deleted : List (List String)
  failures : List (List String)
deriving DecidableEq, Repr

/-- Modelled from the spec: the core synchronization pass of the external
`dirsync.sync` engine (third-party library, not part of this repository),
called with `action="sync"`, `purge=True`, `create=True`.  Per the
specification of the core pass: the effective source must exist and be a
directory (otherwise `SourceNotFoundError`); a destination that exists as a
non-directory file is unusable (`DestinationInvalidError`); otherwise the
destination is created if absent and brought to match the source —
missing entries created, differing files re-copied, extraneous entries
purged.  The `verbose` flag only controls diagnostic output and does not
affect the pass, so it is not a parameter here.  Returns the destination
tree after the pass and the mutations applied. -/
def dirsyncSync (srcTree : FSTree) (dst : Option FSTree) :
    Except SyncError (FSTree × SyncActions) :=
  match srcTree with
  | .file _ => .error .sourceNotFound
  | .dir _ =>
    match dst with
    | some (.file _) => .error .destinationInvalid
    | some (.dir ds) => .ok (srcTree, computeActions srcTree (.dir ds))
    | Option.none => .ok (srcTree, computeActions srcTree (.dir .nil))

/-- Everything observable about one call to `sync_dir`. -/
structure SyncOutcome where
  /-- The exception propagated to the caller, `none` if the call returns
  normally. -/
  error : Option SyncError
  /-- The Python return value on normal return.  `sync_dir` has no `return`
  statement, so a normal return yields `None`, never a `SyncResult`. -/
  ret : Option SyncResult
  /-- The destination tree after the call (`none`: the destination path does
  not exist). -/
  dst : Option FSTree
  /-- The destination mutations performed during the call. -/
  actions : SyncActions
  /-- Whether the `tempfile.TemporaryDirectory` staging area was created. -/
  stagingCreated : Bool
  /-- Whether the staging directory still exists on disk after the call
  returns.  Each exit path of the embedding records the effect of
  `TemporaryDirectory.__exit__`, which removes the directory both on normal
  exit and on exception propagation. -/
  stagingAfter : Bool
  /-- The base name under which the source was staged inside the scratch
  directory (`temp_src = Path(tmpdir) / src.name`), when staging happened. -/
  stagedName : Option String
  /-- The `verbose` value passed on to `dirsync.sync`, `none` if the engine
  was never invoked. -/
  verboseToEngine : Option Bool

/--
Embedding of `sync_dir(src, dst, exclude_hidden, verbose)` (main.py lines
72-123).

* `nt` : `os.name == 'nt'`.
* `srcName` : `src.name`, the base name of the (resolved) source path.
* `src` : what is on disk at the source path — `none` if nothing exists
  there, `some t` if the subtree `t` does (a `.file` models a source path
  that exists but is a regular file).
* `dst` : likewise for the destination path.

The function mirrors the source line by line: resolve paths (names are
abstract here), raise `FileNotFoundError` when `not src.exists()`; when
`exclude_hidden`, enter `tempfile.TemporaryDirectory()`, run
`shutil.copytree(src, tmpdir/src.name, ignore=_ignore_hidden)` (which fails
on a non-directory source, after the scratch directory already exists), then
run `dirsync.sync` against the staged copy; otherwise run `dirsync.sync`
against the source directly.  On every path leaving the `with` block the
context manager removes the scratch directory before the exception or
return propagates.
-/
def sync_dir (nt : Bool) (srcName : String) (src : Option FSTree)
    (dst : Option FSTree) (exclude_hidden : Bool) (verbose : Bool) :
    SyncOutcome :=
  match src with
  | Option.none =>
      -- `if not src.exists(): raise FileNotFoundError(...)` — before any
      -- staging or destination work.
      { error := some .sourceNotFound, ret := Option.none, dst := dst,
        actions := SyncActions.none, stagingCreated := false,
        stagingAfter := false, stagedName := Option.none,
        verboseToEngine := Option.none }
  | some srcTree =>
    if exclude_hidden then
      match srcTree with
      | .file _ =>
          -- `TemporaryDirectory()` has been entered; `shutil.copytree`
          -- raises on a non-directory source; `__exit__` removes the
          -- scratch directory and the exception propagates.
          { error := some .stagingError, ret := Option.none, dst := dst,
            actions := SyncActions.none, stagingCreated := true,
            stagingAfter := false, stagedName := Option.none,
            verboseToEngine := Option.none }
      | .dir es =>
          -- `temp_src = Path(tmpdir) / src.name`; the ignore callback is
          -- applied to the children of each copied directory, never to
          -- `src` itself.
          let staged : FSTree := .dir (es.filterHidden nt)
          match dirsyncSync staged dst with
          | .error e =>
              { error := some e, ret := Option.none, dst := dst,
                actions := SyncActions.none, stagingCreated := true,
                stagingAfter := false, stagedName := some srcName,
                verboseToEngine := some verbose }
          | .ok (d, acts) =>
              { error := Option.none, ret := Option.none, dst := some d,
                actions := acts, stagingCreated := true,
                stagingAfter := false, stagedName := some srcName,
                verboseToEngine := some verbose }
    else
      match dirsyncSync srcTree dst with
      | .error e =>
          { error := some e, ret := Option.none, dst := dst,
            actions := SyncActions.none, stagingCreated := false,
            stagingAfter := false, stagedName := Option.none,
            verboseToEngine := some verbose }
      | .ok (d, acts) =>
          { error := Option.none, ret := Option.none, dst := some d,
            actions := acts, stagingCreated := false,
            stagingAfter := false, stagedName := Option.none,
            verboseToEngine := some verbose }

/-- A call `sync_dir(src, dst)` that omits both optional arguments: the
Python signature (main.py line 72) declares
`exclude_hidden: bool = False, verbose: bool = True`. -/
def sync_dir_defaults (nt : Bool) (srcName : String) (src : Option FSTree)
    (dst : Option FSTree) : SyncOutcome :=
  sync_dir nt srcName src dst false true

/-- The effective source of a call: the hidden-filtered staging copy when
`exclude_hidden` is set, the source itself otherwise. -/
def effectiveSource (nt : Bool) (exclude_hidden : Bool) (t : FSTree) : FSTree :=
  if exclude_hidden then t.filterHidden nt else t

/-- Look a path up in an optional tree (no entry at all when the tree is
absent). -/
def lookupOpt (d : Option FSTree) (p : List String) : Option (Option String) :=
  match d with
  | Option.none => Option.none
  | some t => t.lookup p

/-- Filtering never invents names: a name of the filtered children was a
name of the original children. -/
theorem mem_names_filterHidden (nt : Bool) :
    (es : EntryList) → ∀ n : String,
      n ∈ (es.filterHidden nt).names → n ∈ es.names
  | .nil, _, h => h
  | .cons m a t rest, n, h => by
    simp only [EntryList.filterHidden] at h
    by_cases hm : isHidden nt m a = true
    · rw [if_pos hm] at h
      exact List.mem_cons_of_mem _ (mem_names_filterHidden nt rest n h)
    · rw [if_neg hm] at h
      simp only [EntryList.names] at h
      rcases List.mem_cons.1 h with h1 | h2
      · exact h1 ▸ List.mem_cons_self _ _
      · exact List.mem_cons_of_mem _ (mem_names_filterHidden nt rest n h2)

/-- `find` on a name that is not among the children yields nothing. -/
theorem find_eq_none_of_not_mem_names :
    (es : EntryList) → ∀ n : String, n ∉ es.names → ∀ p,
      es.find n p = Option.none
  | .nil, _, _, _ => rfl
  | .cons m a t rest, n, h, p => by
    simp only [EntryList.names, List.mem_cons, not_or] at h
    have hmn : ¬ m = n := fun he => h.1 he.symm
    simp only [EntryList.find, if_neg hmn]
    exact find_eq_none_of_not_mem_names rest n h.2 p

/-- An entry of the children list contributes its name to the name list. -/
theorem name_mem_names_of_mem_toList :
    (es : EntryList) → ∀ n a t, (n, a, t) ∈ es.toList → n ∈ es.names
  | .nil, _, _, _, h => absurd h (List.not_mem_nil _)
  | .cons m a0 t0 rest, n, a, t, h => by
    simp only [EntryList.toList, List.mem_cons] at h
    rcases h with h1 | h2
    · simp only [Prod.mk.injEq] at h1
      exact h1.1 ▸ List.mem_cons_self _ _
    · exact List.mem_cons_of_mem _ (name_mem_names_of_mem_toList rest n a t h2)

/-- Every path strictly below a directory starts with the name of one of its
children. -/
theorem paths_shape :
    (es : EntryList) → ∀ q, q ∈ es.paths →
      ∃ n p, q = n :: p ∧ n ∈ es.names
  | .nil, q, h => absurd h (by simp [EntryList.paths])
  | .cons m a t rest, q, h => by
    simp only [EntryList.paths, List.mem_append, List.mem_map] at h
    rcases h with ⟨p, _, hq⟩ | h2
    · exact ⟨m, p, hq.symm, List.mem_cons_self _ _⟩
    · rcases paths_shape rest q h2 with ⟨n, p, hq, hn⟩
      exact ⟨n, p, hq, List.mem_cons_of_mem _ hn⟩

mutual
/-- On a well-formed tree, every enumerated path has a successful lookup. -/
theorem lookup_isSome_of_mem_paths :
    (t : FSTree) → t.wf = true → ∀ p, p ∈ t.paths →
      (t.lookup p).isSome = true
  | .file c, _, p, hp => by
    simp only [FSTree.paths, List.mem_singleton] at hp
    subst hp
    rfl
  | .dir es, hw, p, hp => by
    simp only [FSTree.wf, Bool.and_eq_true] at hw
    simp only [FSTree.paths, List.mem_cons] at hp
    rcases hp with h0 | h1
    · subst h0; rfl
    · rcases paths_shape es p h1 with ⟨n, p2, hq, _⟩
      subst hq
      simpa only [FSTree.lookup] using
        find_isSome_of_mem_paths es hw.1 hw.2 n p2 h1
/-- On a well-formed children list, every enumerated path `n :: p` is found
under the child named `n`. -/
theorem find_isSome_of_mem_paths :
    (es : EntryList) → decide es.names.Nodup = true → es.wfAll = true →
    ∀ n p, (n :: p) ∈ es.paths → (es.find n p).isSome = true
  | .nil, _, _, n, p, h => absurd h (by simp [EntryList.paths])
  | .cons m a t rest, hnd, hwa, n, p, h => by
    have hnd2 := of_decide_eq_true hnd
    rw [EntryList.names, List.nodup_cons] at hnd2
    simp only [EntryList.wfAll, Bool.and_eq_true] at hwa
    simp only [EntryList.paths, List.mem_append, List.mem_map] at h
    rcases h with ⟨p2, hp2, hq⟩ | h2
    · have hm : m = n := (List.cons.injEq _ _ _ _ ▸ hq).1
      have hp : p = p2 := (List.cons.injEq _ _ _ _ ▸ hq).2.symm
      subst hm; subst hp
      simp only [EntryList.find, if_pos rfl]
      exact lookup_isSome_of_mem_paths t hwa.1 p hp2
    · rcases paths_shape rest (n :: p) h2 with ⟨n2, p2, hq, hn2⟩
      have hn : n ∈ rest.names := by
        have : n = n2 := (List.cons.injEq _ _ _ _ ▸ hq).1
        exact this ▸ hn2
      have hmn : m ≠ n := fun heq => hnd2.1 (heq ▸ hn)
      simp only [EntryList.find, if_neg hmn]
      exact find_isSome_of_mem_paths rest
        (decide_eq_true hnd2.2) hwa.2 n p h2
end

/-- The match used by `computeActions.updated` is false on a repeated
scrutinee. -/
theorem updated_pred_self_false (o : Option (Option String)) :
    (match o, o with
      | some (some a), some (some b) => a != b
      | _, _ => false) = false := by
  rcases o with _ | ov
  · rfl
  · rcases ov with _ | a
    · rfl
    · show (a != a) = false
      simp

/-- A pass from a well-formed tree onto itself touches nothing. -/
theorem computeActions_self (t : FSTree) (hw : t.wf = true) :
    computeActions t t = SyncActions.none := by
  have hc : t.paths.filter (fun p => (t.lookup p).isNone) = [] := by
    rw [List.filter_eq_nil_iff]
    intro p hp hcon
    have hs := lookup_isSome_of_mem_paths t hw p hp
    rw [Option.isNone_iff_eq_none] at hcon
    rw [hcon] at hs
    simp at hs
  have hu : t.paths.filter (fun p =>
      match t.lookup p, t.lookup p with
      | some (some a), some (some b) => a != b
      | _, _ => false) = [] := by
    rw [List.filter_eq_nil_iff]
    intro p _ hcon
    rw [updated_pred_self_false (t.lookup p)] at hcon
    exact Bool.false_ne_true hcon
  show SyncActions.mk _ _ _ = SyncActions.mk [] [] []
  simp only [hc, hu]

/-- Hidden-filtering preserves distinctness of sibling names. -/
theorem nodup_names_filterHidden (nt : Bool) :
    (es : EntryList) → es.names.Nodup → (es.filterHidden nt).names.Nodup
  | .nil, _ => List.nodup_nil
  | .cons m a t rest, hnd => by
    rw [EntryList.names, List.nodup_cons] at hnd
    simp only [EntryList.filterHidden]
    by_cases hm : isHidden nt m a = true
    · rw [if_pos hm]
      exact nodup_names_filterHidden nt rest hnd.2
    · rw [if_neg hm]
      rw [EntryList.names, List.nodup_cons]
      refine ⟨fun hmem => hnd.1 (mem_names_filterHidden nt rest m hmem), ?_⟩
      exact nodup_names_filterHidden nt rest hnd.2

mutual
/-- Hidden-filtering preserves well-formedness of a tree. -/
theorem wf_filterHidden (nt : Bool) :
    (t : FSTree) → t.wf = true → (t.filterHidden nt).wf = true
  | .file _, _ => rfl
  | .dir es, hw => by
    simp only [FSTree.wf, Bool.and_eq_true] at hw
    simp only [FSTree.filterHidden, FSTree.wf, Bool.and_eq_true]
    refine ⟨decide_eq_true ?_, wfAll_filterHidden nt es hw.2⟩
    exact nodup_names_filterHidden nt es (of_decide_eq_true hw.1)
/-- Hidden-filtering preserves well-formedness of every subtree in a
children list. -/
theorem wfAll_filterHidden (nt : Bool) :
    (es : EntryList) → es.wfAll = true → (es.filterHidden nt).wfAll = true
  | .nil, _ => rfl
  | .cons m a t rest, hwa => by
    simp only [EntryList.wfAll, Bool.and_eq_true] at hwa
    simp only [EntryList.filterHidden]
    by_cases hm : isHidden nt m a = true
    · rw [if_pos hm]
      exact wfAll_filterHidden nt rest hwa.2
    · rw [if_neg hm]
      simp only [EntryList.wfAll, Bool.and_eq_true]
      exact ⟨wf_filterHidden nt t hwa.1, wfAll_filterHidden nt rest hwa.2⟩
end

/-- The names kept at one directory level are exactly the names of the
non-hidden children, in order. -/
theorem names_filterHidden_eq (nt : Bool) :
    (es : EntryList) → (es.filterHidden nt).names =
      (es.toList.filter (fun e => !isHidden nt e.1 e.2.1)).map
        (fun e => e.1)
  | .nil => rfl
  | .cons m a t rest => by
    simp only [EntryList.filterHidden, EntryList.toList, List.filter_cons]
    by_cases hm : isHidden nt m a = true
    · rw [if_pos hm]
      simp only [hm, Bool.not_true, if_neg]
      simp only [Bool.false_eq_true, if_false]
      exact names_filterHidden_eq nt rest
    · rw [if_neg hm]
      have hm2 : isHidden nt m a = false := Bool.not_eq_true _ ▸ hm
      simp only [hm2, Bool.not_false, if_pos, List.map_cons]
      rw [EntryList.names]
      exact congrArg (List.cons m) (names_filterHidden_eq nt rest)

/-- Nothing below a hidden child survives the staging filter: `find` on the
hidden name fails for every continuation path. -/
theorem find_filterHidden_hidden_eq_none (nt : Bool) :
    (es : EntryList) → ∀ n a t, (n, a, t) ∈ es.toList →
      isHidden nt n a = true → es.names.Nodup → ∀ p,
      (es.filterHidden nt).find n p = Option.none
  | .nil, n, a, t, hmem, _, _, _ => absurd hmem (List.not_mem_nil _)
  | .cons m a0 t0 rest, n, a, t, hmem, hhid, hnd, p => by
    rw [EntryList.names, List.nodup_cons] at hnd
    simp only [EntryList.toList, List.mem_cons] at hmem
    simp only [EntryList.filterHidden]
    rcases hmem with h1 | h2
    · simp only [Prod.mk.injEq] at h1
      rcases h1 with ⟨hn, ha, _⟩
      subst hn
      rw [if_pos (ha ▸ hhid)]
      refine find_eq_none_of_not_mem_names _ n ?_ p
      exact fun hmem2 => hnd.1 (mem_names_filterHidden nt rest n hmem2)
    · by_cases hm : isHidden nt m a0 = true
      · rw [if_pos hm]
        exact find_filterHidden_hidden_eq_none nt rest n a t h2 hhid hnd.2 p
      · rw [if_neg hm]
        have hn : n ∈ rest.names := name_mem_names_of_mem_toList rest n a t h2
        have hmn : m ≠ n := fun heq => hnd.1 (heq ▸ hn)
        simp only [EntryList.find, if_neg hmn]
        exact find_filterHidden_hidden_eq_none nt rest n a t h2 hhid hnd.2 p

/-- C4: `_is_hidden` is a pure function of the entry's base name, the
platform class, and the reported attribute bitset: it returns `true` exactly
when the base name starts with `.`, or the platform is attribute-based
(Windows) and the attribute query actually reported a bitset (returned,
with a value other than `INVALID_FILE_ATTRIBUTES = -1`) whose hidden bit
(`0x2`) is set. -/
theorem claim_C4_isHidden_characterization (nt : Bool) (name : String)
    (aq : Option Int) :
    isHidden nt name aq = true ↔
      (startsWithDot name = true ∨
        (nt = true ∧ ∃ a : Int, aq = some a ∧ a ≠ -1 ∧ 2 ≤ a % 4)) := by
  unfold isHidden
  cases hs : startsWithDot name with
  | true => simp
  | false =>
    cases nt with
    | false => simp
    | true =>
      cases aq with
      | none => simp
      | some a =>
        by_cases ha : a = -1
        · subst ha; simp
        · simp [ha, decide_eq_true_iff]

/-- C5: when the attribute query fails — the API call raises (`none`) or
returns `INVALID_FILE_ATTRIBUTES` (`-1`) — the classifier propagates no
failure and answers "not hidden" for any name that is not dot-prefixed, on
either platform class. -/
theorem claim_C5_fail_open (nt : Bool) (name : String)
    (h : startsWithDot name = false) :
    isHidden nt name Option.none = false ∧
      isHidden nt name (some (-1)) = false := by
  unfold isHidden
  cases nt <;> simp [h]

theorem claim_C5_fail_open_witness :
    isHidden true "report.txt" Option.none = false ∧
      isHidden true "report.txt" (some (-1)) = false :=
  claim_C5_fail_open true "report.txt" (by decide)

/-- C9 (code evaluated at the failing input): omitting the optional
arguments of `sync_dir` passes `verbose=True` to the engine — the
signature's default is `True` — while an explicit `verbose=false` call
passes `False`; the two calls are observably different, contradicting the
documented default of `False`. -/
theorem claim_C9_default_verbose_is_true :
    (sync_dir_defaults false "src" (some (.dir .nil))
        Option.none).verboseToEngine = some true ∧
    (sync_dir false "src" (some (.dir .nil)) Option.none false
        false).verboseToEngine = some false ∧
    (some true ≠ some false) :=
  ⟨rfl, rfl, by decide⟩

/-- C8 counterexample: a successful concrete run of `sync_dir` returns
Python `None` — no `SyncResult` value in which per-entry failures could be
collected and surfaced is returned to the caller. -/
theorem claim_C8_counterexample :
    (sync_dir false "src"
        (some (.dir (.cons "a" Option.none (.file "1") .nil)))
        Option.none false true).error = Option.none ∧
    (sync_dir false "src"
        (some (.dir (.cons "a" Option.none (.file "1") .nil)))
        Option.none false true).ret = (Option.none : Option SyncResult) :=
  ⟨rfl, rfl⟩

/-- C8 amended: `sync_dir` has no `return` statement; on every call its
Python return value is `None`, never a `SyncResult`, so per-entry failures
are not surfaced to the caller through the return value. -/
theorem claim_C8_returns_none (nt : Bool) (srcName : String)
    (src dst : Option FSTree) (eh v : Bool) :
    (sync_dir nt srcName src dst eh v).ret = Option.none := by
  rcases src with _ | t
  · rfl
  · rcases t with c | es
    · cases eh
      · rfl
      · rfl
    · cases eh
      · rcases dst with _ | d
        · rfl
        · rcases d with c2 | ds
          · rfl
          · rfl
      · rcases dst with _ | d
        · rfl
        · rcases d with c2 | ds
          · rfl
          · rfl

/-- C3: with `excludeHidden=true`, on every exit path — normal return,
staging failure, or an engine error after staging — the staging directory
no longer exists when `sync_dir` returns; and whenever the source existence
check passes, the staging area really was created first. -/
theorem claim_C3_staging_released (nt : Bool) (srcName : String)
    (src dst : Option FSTree) (v : Bool) :
    (sync_dir nt srcName src dst true v).stagingAfter = false ∧
      (src ≠ Option.none →
        (sync_dir nt srcName src dst true v).stagingCreated = true) := by
  rcases src with _ | t
  · exact ⟨rfl, fun h => absurd rfl h⟩
  · rcases t with c | es
    · exact ⟨rfl, fun _ => rfl⟩
    · rcases dst with _ | d
      · exact ⟨rfl, fun _ => rfl⟩
      · rcases d with c2 | ds
        · exact ⟨rfl, fun _ => rfl⟩
        · exact ⟨rfl, fun _ => rfl⟩

theorem claim_C3_staging_released_witness :
    (sync_dir false "src" (some (.file "x")) Option.none true
        true).stagingAfter = false ∧
    (sync_dir false "src" (some (.file "x")) Option.none true
        true).stagingCreated = true := by
  have h := claim_C3_staging_released false "src" (some (.file "x"))
    Option.none true
  exact ⟨h.1, h.2 (by simp)⟩

/-- C2 counterexample: a source path that exists but is a regular file (so
"is not a directory" holds) with `excludeHidden=true` does not fail with
`SourceNotFoundError` — the staging copy fails instead — and the staging
area was already created when the failure happened, refuting both the
"exactly when" and the "creates no staging area" parts of the claim. -/
theorem claim_C2_counterexample :
    (sync_dir false "src" (some (.file "data")) Option.none true
        true).error = some SyncError.stagingError ∧
    some SyncError.stagingError ≠ some SyncError.sourceNotFound ∧
    (sync_dir false "src" (some (.file "data")) Option.none true
        true).stagingCreated = true :=
  ⟨rfl, by decide, rfl⟩

/-- C2 amended: `sync_dir` fails with `SourceNotFoundError` exactly when
the source path does not exist, or when `excludeHidden=false` and the
source exists as a non-directory file (rejected by the sync engine); and
when the source does not exist the call aborts before any destination
mutation and before any staging area is created.  (With
`excludeHidden=true`, a non-directory source instead fails during staging,
after the staging area was created.) -/
theorem claim_C2_amended (nt : Bool) (srcName : String)
    (src dst : Option FSTree) (eh v : Bool) :
    ((sync_dir nt srcName src dst eh v).error = some SyncError.sourceNotFound ↔
      (src = Option.none ∨
        (eh = false ∧ ∃ c, src = some (.file c)))) ∧
    (src = Option.none →
      (sync_dir nt srcName src dst eh v).dst = dst ∧
      (sync_dir nt srcName src dst eh v).actions = SyncActions.none ∧
      (sync_dir nt srcName src dst eh v).stagingCreated = false) := by
  rcases src with _ | t
  · exact ⟨by simp [sync_dir], fun _ => ⟨rfl, rfl, rfl⟩⟩
  · refine ⟨?_, fun h => Option.noConfusion h⟩
    rcases t with c | es
    · cases eh
      · simp [sync_dir, dirsyncSync]
      · simp [sync_dir, dirsyncSync]
    · cases eh
      · rcases dst with _ | d
        · simp [sync_dir, dirsyncSync]
        · rcases d with c2 | ds
          · simp [sync_dir, dirsyncSync]
          · simp [sync_dir, dirsyncSync]
      · rcases dst with _ | d
        · simp [sync_dir, dirsyncSync]
        · rcases d with c2 | ds
          · simp [sync_dir, dirsyncSync]
          · simp [sync_dir, dirsyncSync]

theorem claim_C2_amended_witness :
    ((sync_dir false "src" Option.none Option.none true
        true).error = some SyncError.sourceNotFound ↔
      ((Option.none : Option FSTree) = Option.none ∨
        (true = false ∧ ∃ c, (Option.none : Option FSTree) = some (.file c)))) ∧
    (sync_dir false "src" Option.none Option.none true true).dst =
        Option.none ∧
    (sync_dir false "src" Option.none Option.none true true).actions =
        SyncActions.none ∧
    (sync_dir false "src" Option.none Option.none true true).stagingCreated =
        false := by
  have h := claim_C2_amended false "src" Option.none Option.none true true
  exact ⟨h.1, h.2 rfl⟩

/-- C1: whenever `sync_dir` returns without error, every path of the
effective source tree (the source itself, or its hidden-filtered staging
copy when `excludeHidden` is set) is present in the destination with the
same content, and every path absent from the effective source is absent
from the destination: the lookups agree everywhere. -/
theorem claim_C1_destination_matches_effective_source (nt : Bool)
    (srcName : String) (t : FSTree) (dst : Option FSTree) (eh v : Bool)
    (h : (sync_dir nt srcName (some t) dst eh v).error = Option.none)
    (p : List String) :
    lookupOpt (sync_dir nt srcName (some t) dst eh v).dst p =
      (effectiveSource nt eh t).lookup p := by
  rcases t with c | es
  · cases eh
    · exact absurd h (by simp [sync_dir, dirsyncSync])
    · exact absurd h (by simp [sync_dir])
  · cases eh
    · rcases dst with _ | d
      · rfl
      · rcases d with c2 | ds
        · exact absurd h (by simp [sync_dir, dirsyncSync])
        · rfl
    · rcases dst with _ | d
      · rfl
      · rcases d with c2 | ds
        · exact absurd h (by simp [sync_dir, dirsyncSync])
        · rfl

/-- C6: on a directory level with distinct child names, the staging filter
keeps exactly the children the classifier marks non-hidden (it is applied to
every child name), and a child classified as hidden is pruned entirely: no
path below it exists in the staged tree, so none of its contents is ever
copied. -/
theorem claim_C6_hidden_children_pruned (nt : Bool) (es : EntryList)
    (n : String) (a : Option Int) (t : FSTree)
    (hmem : (n, a, t) ∈ es.toList) (hhid : isHidden nt n a = true)
    (hnd : es.names.Nodup) :
    ((es.filterHidden nt).names =
      (es.toList.filter (fun e => !isHidden nt e.1 e.2.1)).map
        (fun e => e.1)) ∧
    ∀ p, (FSTree.dir (es.filterHidden nt)).lookup (n :: p) = Option.none := by
  refine ⟨names_filterHidden_eq nt es, fun p => ?_⟩
  simp only [FSTree.lookup]
  exact find_filterHidden_hidden_eq_none nt es n a t hmem hhid hnd p

theorem claim_C6_hidden_children_pruned_witness :
    ((EntryList.cons ".git" Option.none
        (.dir (.cons "c" Option.none (.file "z") .nil))
        (.cons "a" Option.none (.file "1") .nil)).filterHidden false).names =
      (((EntryList.cons ".git" Option.none
        (.dir (.cons "c" Option.none (.file "z") .nil))
        (.cons "a" Option.none (.file "1") .nil)).toList).filter
          (fun e => !isHidden false e.1 e.2.1)).map (fun e => e.1) ∧
    (FSTree.dir ((EntryList.cons ".git" Option.none
        (.dir (.cons "c" Option.none (.file "z") .nil))
        (.cons "a" Option.none (.file "1") .nil)).filterHidden
          false)).lookup [".git", "c"] = Option.none := by
  have h := claim_C6_hidden_children_pruned false
    (.cons ".git" Option.none (.dir (.cons "c" Option.none (.file "z") .nil))
      (.cons "a" Option.none (.file "1") .nil))
    ".git" Option.none (.dir (.cons "c" Option.none (.file "z") .nil))
    (by simp [EntryList.toList]) (by decide) (by decide)
  exact ⟨h.1, h.2 ["c"]⟩

/-- C7: running `sync_dir` a second time on an unchanged well-formed source,
against the destination produced by a first error-free run, performs no
destination mutation at all: nothing is created, updated or deleted. -/
theorem claim_C7_idempotent (nt : Bool) (srcName : String) (t : FSTree)
    (dst : Option FSTree) (eh v : Bool) (hw : t.wf = true)
    (h1 : (sync_dir nt srcName (some t) dst eh v).error = Option.none) :
    (sync_dir nt srcName (some t)
        (sync_dir nt srcName (some t) dst eh v).dst eh v).error =
      Option.none ∧
    (sync_dir nt srcName (some t)
        (sync_dir nt srcName (some t) dst eh v).dst eh v).actions =
      SyncActions.none := by
  rcases t with c | es
  · cases eh
    · exact absurd h1 (by simp [sync_dir, dirsyncSync])
    · exact absurd h1 (by simp [sync_dir])
  · cases eh
    · rcases dst with _ | d
      · refine ⟨rfl, ?_⟩
        show computeActions (.dir es) (.dir es) = SyncActions.none
        exact computeActions_self _ hw
      · rcases d with c2 | ds
        · exact absurd h1 (by simp [sync_dir, dirsyncSync])
        · refine ⟨rfl, ?_⟩
          show computeActions (.dir es) (.dir es) = SyncActions.none
          exact computeActions_self _ hw
    · rcases dst with _ | d
      · refine ⟨rfl, ?_⟩
        show computeActions (.dir (es.filterHidden nt))
          (.dir (es.filterHidden nt)) = SyncActions.none
        exact computeActions_self _ (wf_filterHidden nt (.dir es) hw)
      · rcases d with c2 | ds
        · exact absurd h1 (by simp [sync_dir, dirsyncSync])
        · refine ⟨rfl, ?_⟩
          show computeActions (.dir (es.filterHidden nt))
            (.dir (es.filterHidden nt)) = SyncActions.none
          exact computeActions_self _ (wf_filterHidden nt (.dir es) hw)

theorem claim_C7_idempotent_witness :
    (sync_dir false "src"
        (some (.dir (.cons "a" Option.none (.file "1") .nil)))
        (sync_dir false "src"
          (some (.dir (.cons "a" Option.none (.file "1") .nil)))
          Option.none false true).dst false true).error = Option.none ∧
    (sync_dir false "src"
        (some (.dir (.cons "a" Option.none (.file "1") .nil)))
        (sync_dir false "src"
          (some (.dir (.cons "a" Option.none (.file "1") .nil)))
          Option.none false true).dst false true).actions =
      SyncActions.none :=
  claim_C7_idempotent false "src"
    (.dir (.cons "a" Option.none (.file "1") .nil))
    Option.none false true (by decide) rfl

/-- C10: with `excludeHidden=true`, the classifier is never applied to the
source root itself: even when the source directory's own base name starts
with a dot, the tree is staged (under that same base name in the scratch
directory) and, on an error-free run, the destination receives the
hidden-filtered children of the source — the tree is not excluded
wholesale. -/
theorem claim_C10_root_name_not_classified (nt : Bool) (srcName : String)
    (es : EntryList) (dst : Option FSTree) (v : Bool)
    (_h : startsWithDot srcName = true) :
    (sync_dir nt srcName (some (.dir es)) dst true v).stagingCreated =
        true ∧
    (sync_dir nt srcName (some (.dir es)) dst true v).stagedName =
        some srcName ∧
    ((sync_dir nt srcName (some (.dir es)) dst true v).error = Option.none →
      ∀ p, lookupOpt (sync_dir nt srcName (some (.dir es)) dst true v).dst p =
        (FSTree.dir (es.filterHidden nt)).lookup p) := by
  rcases dst with _ | d
  · exact ⟨rfl, rfl, fun _ p => rfl⟩
  · rcases d with c | ds
    · exact ⟨rfl, rfl, fun he p => absurd he (by simp [sync_dir, dirsyncSync])⟩
    · exact ⟨rfl, rfl, fun _ p => rfl⟩

theorem claim_C10_root_name_not_classified_witness :
    (sync_dir false ".cfg"
        (some (.dir (.cons "a" Option.none (.file "1") .nil)))
        Option.none true true).stagingCreated = true ∧
    (sync_dir false ".cfg"
        (some (.dir (.cons "a" Option.none (.file "1") .nil)))
        Option.none true true).stagedName = some ".cfg" ∧
    lookupOpt (sync_dir false ".cfg"
        (some (.dir (.cons "a" Option.none (.file "1") .nil)))
        Option.none true true).dst ["a"] =
      (FSTree.dir ((EntryList.cons "a" Option.none (.file "1")
        .nil).filterHidden false)).lookup ["a"] := by
  have h := claim_C10_root_name_not_classified false ".cfg"
    (.cons "a" Option.none (.file "1") .nil) Option.none true (by decide)
  exact ⟨h.1, h.2.1, h.2.2 rfl ["a"]⟩

theorem claim_C1_destination_matches_effective_source_witness :
    lookupOpt (sync_dir false "src"
        (some (.dir (.cons "a" Option.none (.file "1")
          (.cons ".hidden" Option.none (.file "2") .nil))))
        Option.none true true).dst ["a"] =
      (effectiveSource false true
        (.dir (.cons "a" Option.none (.file "1")
          (.cons ".hidden" Option.none (.file "2") .nil)))).lookup ["a"] :=
  claim_C1_destination_matches_effective_source false "src"
    (.dir (.cons "a" Option.none (.file "1")
      (.cons ".hidden" Option.none (.file "2") .nil)))
    Option.none true true rfl ["a"]

end MySync
